import Mathlib

/-!
Verification development for the PromptHub browser-automation bridge.

The definitions below are shallow embeddings of the repository's source:
* the CDP relay server (`cdpRelayServer.ts`): `CDPRelayServer` message
  handling, `ExtensionConnection` callback management, socket handlers;
* the tab controller (`controller.ts`, which contains two variants of the
  `PlaywrightController` class): `getTabs` (both variants) and the adapter
  resolution in `executePrompt`;
* the adapter registry (`adapter-factory.ts`) and the DeepSeek adapter's
  `typeHumanLike` (`deepseek-adapter.ts`);
* the persistent context factory retry loop (`browserContextFactory.ts`).

Asynchronous awaits are modelled by atomic trace events: the reply of the
extension to an `attachToTab` request is supplied as an oracle value carried
by the client-message event, and the resolution of a pending forwarded
command is a separate trace event, exactly as the callbacks fire in the
source.  JavaScript strings are Lean `String`s, `JSON.parse` results are
values of a small `Json` type, and `Math.random()` samples are a stream of
rationals in `[0, 1)`.
-/

namespace PromptHub

/-- JSON values, the result type of `JSON.parse` in the relay.  Objects keep
their fields in insertion order, as JavaScript objects do. -/
inductive Json where
  | null : Json
  | bool (b : Bool) : Json
  | num (n : Int) : Json
  | str (s : String) : Json
  | obj (fields : List (String × Json)) : Json

/-- Property read `j[k]` on a JSON object (first matching key). -/
def Json.lookup : Json → String → Option Json
  | Json.obj fs, k => (fs.find? (fun p => p.1 == k)).map (fun p => p.2)
  | _, _ => none

/-- Property read that additionally projects a string value. -/
def Json.lookupStr (j : Json) (k : String) : Option String :=
  match j.lookup k with
  | some (Json.str s) => some s
  | _ => none

/-- JavaScript `{...fs, k: v}` restricted to an object's field list: if `k`
is present its value is overwritten in place, otherwise `k` is appended. -/
def objSet (fs : List (String × Json)) (k : String) (v : Json) : List (String × Json) :=
  if fs.any (fun p => p.1 == k) then fs.map (fun p => if p.1 == k then (k, v) else p)
  else fs ++ [(k, v)]

/-- JavaScript object spread `{...j, k: v}` as used for
`{...this._connectionInfo!.targetInfo, attached: true}` in the relay. -/
def Json.spreadSet : Json → String → Json → Json
  | Json.obj fs, k, v => Json.obj (objSet fs k v)
  | _, k, v => Json.obj [(k, v)]

/-- A parsed client command (`CDPCommand` in `cdpRelayServer.ts`). -/
structure CDPCommand where
  id : Nat
  sessionId : Option String
  method : String
  params : Option Json

/-- Error objects `{ code?, message }` of `CDPResponse`. -/
structure ErrObj where
  code : Option Int
  message : String

/-- A frame sent to the Playwright client (`CDPResponse` in the source).
`JSON.stringify` drops `undefined` members, so absent members are `none`. -/
structure ClientFrame where
  id : Option Nat
  sessionId : Option String
  method : Option String
  params : Option Json
  result : Option Json
  error : Option ErrObj

/-- Response frame `{id, result?}` (`_sendToPlaywright` with `id`/`result`). -/
def respFrame (id : Nat) (result : Option Json) : ClientFrame :=
  ⟨some id, none, none, none, result, none⟩

/-- Response frame `{id, sessionId, result}` from `_forwardToExtension`. -/
def fwdResultFrame (id : Nat) (sessionId : Option String) (result : Json) : ClientFrame :=
  ⟨some id, sessionId, none, none, some result, none⟩

/-- Error frame `{id, sessionId, error: {message}}` from `_forwardToExtension`. -/
def fwdErrorFrame (id : Nat) (sessionId : Option String) (msg : String) : ClientFrame :=
  ⟨some id, sessionId, none, none, none, some ⟨none, msg⟩⟩

/-- Event frame `{method, params}` or `{sessionId, method, params}`. -/
def eventFrame (sessionId : Option String) (method : String) (params : Option Json) :
    ClientFrame :=
  ⟨none, sessionId, some method, params, none, none⟩

/-- An envelope sent to the extension by `ExtensionConnection.send`:
`JSON.stringify({id, method, params, sessionId})`. -/
structure ExtEnvelope where
  id : Nat
  method : String
  params : Option Json
  sessionId : Option String

/-- The `{sessionId, method, params}` object sent as the `params` of a
`forwardCDPCommand` envelope; `undefined` members are dropped on the wire. -/
def forwardParams (sessionId : Option String) (method : String) (params : Option Json) :
    Json :=
  Json.obj
    ((match sessionId with | some s => [("sessionId", Json.str s)] | none => []) ++
     [("method", Json.str method)] ++
     (match params with | some p => [("params", p)] | none => []))

/-- The relay's record of the current attachment (`_connectionInfo`). -/
structure ConnectionInfo where
  targetInfo : Json
  sessionId : String

/-- A pending callback registered by `ExtensionConnection.send`.  A
`forwardCmd` entry belongs to `_forwardToExtension` and its resolution or
rejection produces a client frame; a `ctl` entry belongs to a control send
(`detachFromTab`), whose rejection is merely logged by the caller. -/
inductive Pending where
  | forwardCmd (extId : Nat) (clientId : Nat) (clientSessionId : Option String)
  | ctl (extId : Nat)
deriving DecidableEq

/-- The envelope id under which a pending callback is registered. -/
def Pending.extId : Pending → Nat
  | .forwardCmd e _ _ => e
  | .ctl e => e

/-- State of one `CDPRelayServer` instance together with its current
`ExtensionConnection` (callback table and id counter). -/
structure RelayState where
  extConnected : Bool
  connectionInfo : Option ConnectionInfo
  queued : List (CDPCommand × Except String ConnectionInfo)
  pending : List Pending
  lastId : Nat

/-- Initial state: no peers, fresh extension-connected promise. -/
def initialRelayState : RelayState :=
  ⟨false, none, [], [], 0⟩

/-- Output of processing one event: new state, frames sent to the client
(in order), envelopes sent to the extension (in order). -/
structure StepOut where
  st : RelayState
  frames : List ClientFrame
  envs : List ExtEnvelope

/-- The synthesized `Browser.getVersion` reply of `_interceptCDPCommand`. -/
def getVersionResult : Json :=
  Json.obj
    [("protocolVersion", Json.str "1.3"),
     ("product", Json.str "Chrome/PromptHub-Bridge"),
     ("userAgent", Json.str "CDP-Bridge-Server/1.0.0")]

/-- The unsolicited `Target.attachedToTarget` notification synthesized by the
`Target.setAutoAttach` interception. -/
def attachedNotifFrame (ci : ConnectionInfo) : ClientFrame :=
  eventFrame none "Target.attachedToTarget"
    (some (Json.obj
      [("sessionId", Json.str ci.sessionId),
       ("targetInfo", ci.targetInfo.spreadSet "attached" (Json.bool true)),
       ("waitingForDebugger", Json.bool false)]))

/-- Translation of `_forwardToExtension`: allocate the next envelope id, send a
`forwardCDPCommand` envelope, and register the pending callback. -/
def forwardToExtension (st : RelayState) (m : CDPCommand) : StepOut :=
  let newId := st.lastId + 1
  ⟨{ st with
      pending := st.pending ++ [Pending.forwardCmd newId m.id m.sessionId],
      lastId := newId },
   [],
   [⟨newId, "forwardCDPCommand", some (forwardParams m.sessionId m.method m.params), none⟩]⟩

/-- Translation of `_interceptCDPCommand`.  `attachReply` is the extension's eventual answer
to the `attachToTab` request awaited in the `Target.setAutoAttach` branch; a
rejected reply propagates as an exception, so no further frame is sent.
Returns `none` when the command is not intercepted. -/
def interceptCDPCommand (st : RelayState) (m : CDPCommand)
    (attachReply : Except String ConnectionInfo) : Option StepOut :=
  if m.method = "Browser.getVersion" then
    some ⟨st, [respFrame m.id (some getVersionResult)], []⟩
  else if m.method = "Browser.setDownloadBehavior" then
    some ⟨st, [respFrame m.id none], []⟩
  else if m.method = "Target.setAutoAttach" then
    some (match m.sessionId with
      | none =>
        let attachId := st.lastId + 1
        let attachEnv : ExtEnvelope := ⟨attachId, "attachToTab", none, none⟩
        (match attachReply with
         | Except.ok ci =>
            ⟨{ st with connectionInfo := some ci, lastId := attachId },
             [attachedNotifFrame ci, respFrame m.id none],
             [attachEnv]⟩
         | Except.error _ =>
            ⟨{ st with lastId := attachId }, [], [attachEnv]⟩)
      | some _ => forwardToExtension st m)
  else if m.method = "Target.getTargetInfo" then
    some ⟨st, [respFrame m.id ((st.connectionInfo).map (fun ci => ci.targetInfo))], []⟩
  else
    none

/-- Translation of `_handlePlaywrightMessage`, after the `await` of the extension-connected
promise has resumed.  The null-connection branch answers with the
`Extension disconnected before command could be processed` error. -/
def handlePlaywrightMessage (st : RelayState) (m : CDPCommand)
    (attachReply : Except String ConnectionInfo) : StepOut :=
  if st.extConnected then
    match interceptCDPCommand st m attachReply with
    | some out => out
    | none => forwardToExtension st m
  else
    ⟨st, [⟨some m.id, none, none, none, none,
           some ⟨none, "Extension disconnected before command could be processed"⟩⟩], []⟩

/-- Translation of `ExtensionConnection._dispose`: every pending callback is rejected with
`WebSocket closed`; the rejection of a `forwardCmd` callback resumes
`_forwardToExtension`'s catch, which sends the error frame under the
original client id; the rejection of a control send is only logged. -/
def rejectFrame : Pending → Option ClientFrame
  | Pending.forwardCmd _ cid csid => some (fwdErrorFrame cid csid "WebSocket closed")
  | Pending.ctl _ => none

/-- Dispose the extension connection: reject all callbacks and clear the
table; the relay's `onclose` handler nulls the connection and resets the
extension-connected promise. -/
def disposeExtension (st : RelayState) : RelayState × List ClientFrame :=
  ({ st with extConnected := false, pending := [] },
   st.pending.filterMap rejectFrame)

/-- A parsed message from the extension socket, after `JSON.parse`:
either a correlated response `{id, result}` / `{id, error: {message}}`, or
an uncorrelated `{method, params}` event (`_handleParsedMessage`). -/
inductive ExtIncoming where
  | response (rid : Nat) (outcome : Except String Json)
  | extEvent (method : String) (params : Option Json)

/-- Translation of `_handleParsedMessage` together with the relay's
`_handleExtensionMessage` callback.  Returns the new state, the client
frames emitted, and whether the handler closed the extension socket (the
`detachedFromTab` branch closes it; a thrown property access on missing
`params` is caught by `_onMessage`, which also closes it). -/
def handleExtensionIncoming (st : RelayState) :
    ExtIncoming → RelayState × List ClientFrame × Bool
  | ExtIncoming.response rid outcome =>
    match st.pending.find? (fun p => p.extId == rid) with
    | some p =>
      let st' := { st with pending := st.pending.filter (fun q => ¬ q.extId == rid) }
      (match p with
       | Pending.forwardCmd _ cid csid =>
          (st',
           [match outcome with
            | Except.ok r => fwdResultFrame cid csid r
            | Except.error e => fwdErrorFrame cid csid e],
           false)
       | Pending.ctl _ => (st', [], false))
    | none => (st, [], false)
  | ExtIncoming.extEvent mth params =>
    if mth = "forwardCDPEvent" then
      match params with
      | some p =>
        (st,
         [eventFrame (p.lookupStr "sessionId")
            ((p.lookupStr "method").getD "")
            (p.lookup "params")],
         false)
      | none => (st, [], true)
    else if mth = "detachedFromTab" then
      ({ st with connectionInfo := none }, [], true)
    else
      (st, [], false)

/-- The result of `JSON.parse` on raw socket data. -/
inductive ParseResult (α : Type) where
  | ok (v : α)
  | malformed

/-- The `message` handler installed on the Playwright client socket by
`_handlePlaywrightConnection`: a parse failure is caught and logged, the
socket is left open.  The returned flag records whether the handler closed
the client socket (it never does). -/
def onPlaywrightSocketData (st : RelayState) (d : ParseResult CDPCommand)
    (attachReply : Except String ConnectionInfo) : StepOut × Bool :=
  match d with
  | ParseResult.malformed => (⟨st, [], []⟩, false)
  | ParseResult.ok m =>
    if st.extConnected then (handlePlaywrightMessage st m attachReply, false)
    else ({ st := { st with queued := st.queued ++ [(m, attachReply)] },
            frames := [], envs := [] }, false)

/-- Translation of `ExtensionConnection._onMessage`: malformed JSON closes the extension
socket; otherwise the parsed message is dispatched, and a handler that
closes (or throws) also closes the socket.  The flag records whether the
extension socket was closed. -/
def onExtensionSocketData (st : RelayState) (d : ParseResult ExtIncoming) :
    RelayState × List ClientFrame × Bool :=
  match d with
  | ParseResult.malformed => (st, [], true)
  | ParseResult.ok inc => handleExtensionIncoming st inc

/-- One externally visible event of the relay. -/
inductive REvent where
  | extConnect
  | clientData (d : ParseResult CDPCommand) (attachReply : Except String ConnectionInfo)
  | extData (d : ParseResult ExtIncoming)
  | extClose
  | clientClose

/-- Process the commands queued on the extension-connected promise, in
arrival order, accumulating outputs. -/
def processQueued (st : RelayState) :
    List (CDPCommand × Except String ConnectionInfo) →
    RelayState × List ClientFrame × List ExtEnvelope
  | [] => (st, [], [])
  | (m, r) :: rest =>
    let out := handlePlaywrightMessage st m r
    let (st', fs, es) := processQueued out.st rest
    (st', out.frames ++ fs, out.envs ++ es)

/-- One transition of the relay.  `extConnect` supersedes any existing
extension connection (whose callbacks are then rejected by its disposal),
resolves the connected promise and lets the queued commands proceed;
`extClose` disposes the connection; `clientClose` runs `_detachDebugger`,
clearing the stored attachment and sending a best-effort `detachFromTab`. -/
def stepRelay (st : RelayState) : REvent → StepOut
  | REvent.extConnect =>
    let (st1, rejected) :=
      if st.extConnected then disposeExtension st else (st, [])
    let st2 := { st1 with extConnected := true, queued := [] }
    let (st3, fs, es) := processQueued st2 st1.queued
    ⟨st3, rejected ++ fs, es⟩
  | REvent.clientData d r =>
    let (out, _) := onPlaywrightSocketData st d r
    out
  | REvent.extData d =>
    let (st1, fs, closed) := onExtensionSocketData st d
    if closed then
      let (st2, rejected) := disposeExtension st1
      ⟨st2, fs ++ rejected, []⟩
    else
      ⟨st1, fs, []⟩
  | REvent.extClose =>
    let (st1, rejected) := disposeExtension st
    ⟨st1, rejected, []⟩
  | REvent.clientClose =>
    let st1 := { st with connectionInfo := none }
    if st.extConnected then
      let newId := st.lastId + 1
      ⟨{ st1 with pending := st1.pending ++ [Pending.ctl newId], lastId := newId },
       [],
       [⟨newId, "detachFromTab", some (Json.obj []), none⟩]⟩
    else
      ⟨st1, [], []⟩

/-- Run the relay over a trace of events, accumulating all frames sent to
the client and all envelopes sent to the extension. -/
def runRelay (st : RelayState) :
    List REvent → RelayState × List ClientFrame × List ExtEnvelope
  | [] => (st, [], [])
  | e :: rest =>
    let out := stepRelay st e
    let (st', fs, es) := runRelay out.st rest
    (st', out.frames ++ fs, out.envs ++ es)

/-! ### Tab controller (`controller.ts`)

`controller.ts` contains two variants of the `PlaywrightController` class.
Both keep `tabs: Map<string, BrowserTab>` (modelled as a list of entries in
insertion order, with the page handle reduced to its observable
`isClosed()` flag) and `currentTab` (modelled by its id). -/

/-- An entry of the controller's tab table (`BrowserTab`), with the page
handle reduced to its `isClosed()` observation. -/
structure BrowserTab where
  id : String
  url : String
  title : String
  websiteType : Option String
  pageClosed : Bool
deriving DecidableEq

/-- A snapshot entry returned by `getTabs` (`Omit<BrowserTab, 'page'>`). -/
structure TabInfo where
  id : String
  url : String
  title : String
  websiteType : Option String
deriving DecidableEq

/-- Drop the page handle, as the `tabs.map(...)` at the end of `getTabs`. -/
def stripPage (t : BrowserTab) : TabInfo :=
  ⟨t.id, t.url, t.title, t.websiteType⟩

/-- The part of the controller state that `getTabs` touches. -/
structure ControllerState where
  tabs : List BrowserTab
  currentTab : Option String

/-- Model of `getTabs` in the first controller variant (controller.ts:673-703): the
ids of closed tabs are collected, those entries are deleted from the table
(clearing `currentTab` if it is among them), and the remaining entries are
returned without their page handles. -/
def getTabsPruning (st : ControllerState) : ControllerState × List TabInfo :=
  let tabsToDelete := (st.tabs.filter (fun t => t.pageClosed)).map (fun t => t.id)
  let tabs' := st.tabs.filter (fun t => ¬ tabsToDelete.contains t.id)
  let current' := match st.currentTab with
    | some cid => if tabsToDelete.contains cid then none else some cid
    | none => none
  (⟨tabs', current'⟩, tabs'.map stripPage)

/-- Model of `getTabs` in the second controller variant (controller.ts:1029-1037):
the table is returned verbatim, with no pruning. -/
def getTabsNoPrune (st : ControllerState) : ControllerState × List TabInfo :=
  (st, st.tabs.map stripPage)

/-! ### Adapter registry (`adapter-factory.ts`) -/

/-- Substring test on character lists (JavaScript `String.includes`). -/
def hasSub : List Char → List Char → Bool
  | hay, pat =>
    if pat.isPrefixOf hay then true
    else match hay with
      | [] => false
      | _ :: t => hasSub t pat

/-- JavaScript `s.includes(pat)`. -/
def strIncludes (s pat : String) : Bool :=
  hasSub s.data pat.data

/-- The observable identity and URL matcher of a website adapter
(`IWebsiteAdapter`). -/
structure WebsiteAdapterSpec where
  websiteId : String
  websiteName : String
  websiteUrl : String
  requiresProxy : Bool
  isCurrentWebsite : String → Bool

/-- The DeepSeek adapter's identity and `isCurrentWebsite`
(deepseek-adapter.ts). -/
def deepseekAdapter : WebsiteAdapterSpec :=
  ⟨"deepseek", "DeepSeek", "https://chat.deepseek.com/", false,
   fun url => strIncludes url "chat.deepseek.com" || strIncludes url "deepseek.com/chat"⟩

/-- Translation of `AdapterFactory.getAdapter`: `Map.get` keyed by `websiteId` (the ids in
the registry are pairwise distinct, so the first match is the entry). -/
def getAdapter (adapters : List WebsiteAdapterSpec) (websiteId : String) :
    Option WebsiteAdapterSpec :=
  adapters.find? (fun a => a.websiteId == websiteId)

/-- Translation of `AdapterFactory.getAdapterByUrl`: linear scan over the registry in
insertion order, first adapter whose `isCurrentWebsite` accepts wins. -/
def getAdapterByUrl (adapters : List WebsiteAdapterSpec) (url : String) :
    Option WebsiteAdapterSpec :=
  adapters.find? (fun a => a.isCurrentWebsite url)

/-- Outcome of the adapter-resolution prefix of
`PlaywrightController.executePrompt` (controller.ts:604-642): either one of
the typed errors, or the adapter whose `executePrompt` is invoked. -/
inductive ExecOutcome where
  | tabNotFound
  | tabClosed
  | adapterMissing
  | invoke (a : WebsiteAdapterSpec)

/-- Translation of `executePrompt` up to the invocation of the adapter: look up the tab,
reject a closed page, resolve the adapter by site id and then by the tab's
URL, and fail with the adapter-missing error only when both lookups miss. -/
def executePromptResolve (tabs : List BrowserTab) (adapters : List WebsiteAdapterSpec)
    (tabId websiteType : String) : ExecOutcome :=
  match tabs.find? (fun t => t.id == tabId) with
  | none => ExecOutcome.tabNotFound
  | some tab =>
    if tab.pageClosed then ExecOutcome.tabClosed
    else
      match getAdapter adapters websiteType with
      | some a => ExecOutcome.invoke a
      | none =>
        match getAdapterByUrl adapters tab.url with
        | some a => ExecOutcome.invoke a
        | none => ExecOutcome.adapterMissing

/-! ### DeepSeek human typing (`deepseek-adapter.ts`, `typeHumanLike`)

`Math.random()` samples are a stream `r : ℕ → ℚ` of values in `[0, 1)`,
consumed left to right exactly as the loop draws them: chunk size, then the
per-character type delay, then the pause coin, then (when the coin is below
`0.2`) the pause duration. -/

/-- One observable action of `typeHumanLike`: a `page.type` call of one
chunk with its per-character delay, or an extra `waitForTimeout` pause. -/
inductive TypeEvent where
  | typeChunk (chunk : List Char) (delay : ℚ)
  | pause (ms : ℚ)
deriving DecidableEq

/-- The chunk of a `typeChunk` event. -/
def TypeEvent.chunk? : TypeEvent → Option (List Char)
  | TypeEvent.typeChunk c _ => some c
  | TypeEvent.pause _ => none

/-- The `while (pos < text.length)` loop of `typeHumanLike`, with the
remaining text as a character list.  The fuel argument bounds the number of
iterations; every iteration consumes at least one character, so
`text.length` iterations always suffice. -/
def typeHumanLikeAux (r : ℕ → ℚ) : ℕ → ℕ → List Char → List TypeEvent
  | 0, _, _ => []
  | _ + 1, _, [] => []
  | fuel + 1, i, c :: cs =>
    let k := (⌊r i * 3⌋).toNat + 1
    let chunk := (c :: cs).take k
    let rest := (c :: cs).drop k
    let ev := TypeEvent.typeChunk chunk (40 + r (i + 1) * 80)
    if r (i + 2) < 1 / 5 then
      ev :: TypeEvent.pause (80 + r (i + 3) * 200) :: typeHumanLikeAux r fuel (i + 4) rest
    else
      ev :: typeHumanLikeAux r fuel (i + 3) rest

/-- Run of `DeepSeekAdapter.typeHumanLike` on `text`, as the sequence of typing
actions it performs. -/
def typeHumanLike (r : ℕ → ℚ) (text : List Char) : List TypeEvent :=
  typeHumanLikeAux r text.length 0 text

/-! ### Persistent context factory (`browserContextFactory.ts`,
`PersistentContextFactory.createContext`) -/

/-- An apostrophe character (used inside a needle string below). -/
def apostrophe : Char := Char.ofNat 39

/-- The message fragment `Executable doesn't exist` tested by the missing
browser branch. -/
def missingExeNeedle : String :=
  "Executable doesn" ++ String.singleton apostrophe ++ "t exist"

/-- Outcome of `createContext`. -/
inductive CreateResult where
  | created
  | browserNotInstalled
  | otherFailure (msg : String)
  | busy
deriving DecidableEq

/-- Observable effects of the retry loop: each launch attempt, and each
1-second backoff sleep. -/
inductive FactoryAction where
  | launchAttempt
  | sleepOneSecond
deriving DecidableEq

/-- The `for (let i = 0; i < 5; i++)` retry loop of `createContext`.  The
oracle `f` gives the outcome of the `i`-th `launchPersistentContext` call:
`none` for success, `some msg` for a failure with message `msg`.  Branches
in the order of the source: the missing-executable test, then the
`ProcessSingleton` / `Invalid URL` retry test with a 1 s sleep, then the
rethrow; after five failed retryable attempts, the busy error. -/
def createContextLoop (f : ℕ → Option String) :
    ℕ → ℕ → List FactoryAction → CreateResult × List FactoryAction
  | 0, _, acc => (CreateResult.busy, acc)
  | n + 1, i, acc =>
    let acc := acc ++ [FactoryAction.launchAttempt]
    match f i with
    | none => (CreateResult.created, acc)
    | some msg =>
      if strIncludes msg missingExeNeedle then
        (CreateResult.browserNotInstalled, acc)
      else if strIncludes msg "ProcessSingleton" || strIncludes msg "Invalid URL" then
        createContextLoop f n (i + 1) (acc ++ [FactoryAction.sleepOneSecond])
      else
        (CreateResult.otherFailure msg, acc)

/-- Translation of `PersistentContextFactory.createContext` with launch outcomes `f`. -/
def createContext (f : ℕ → Option String) : CreateResult × List FactoryAction :=
  createContextLoop f 5 0 []

/-- A failure message that the retry loop treats as a profile-lock style
failure and neither as a missing executable nor as fatal. -/
def lockStyleMsg (msg : String) : Prop :=
  strIncludes msg missingExeNeedle = false ∧
  (strIncludes msg "ProcessSingleton" || strIncludes msg "Invalid URL") = true

/-- Number of launch attempts recorded in an action list. -/
def countLaunches (l : List FactoryAction) : ℕ :=
  l.countP (fun a => a = FactoryAction.launchAttempt)

/-- Shape of a typing transcript: typing chunks, each optionally followed by
one extra pause, so a pause can only occur directly after a chunk. -/
inductive ChunkedShape : List TypeEvent → Prop where
  | nil : ChunkedShape []
  | chunkOnly (c : List Char) (d : ℚ) {l : List TypeEvent} :
      ChunkedShape l → ChunkedShape (TypeEvent.typeChunk c d :: l)
  | chunkPause (c : List Char) (d p : ℚ) {l : List TypeEvent} :
      ChunkedShape l → ChunkedShape (TypeEvent.typeChunk c d :: TypeEvent.pause p :: l)

/-- An all-zero sample stream, used to witness C8 on a concrete prompt. -/
def rZero : ℕ → ℚ := fun _ => 0

/-- Property read on an envelope's `params` object. -/
def envParamsLookup (e : ExtEnvelope) (k : String) : Option Json :=
  match e.params with
  | some p => p.lookup k
  | none => none

/-- The `params.method` string of an envelope, when present. -/
def envParamsMethod (e : ExtEnvelope) : Option String :=
  match e.params with
  | some p => p.lookupStr "method"
  | none => none

/-- Decision of whether an envelope is a `forwardCDPCommand` for one of the
intercepted methods: `Browser.getVersion`, `Browser.setDownloadBehavior`,
`Target.getTargetInfo`, or `Target.setAutoAttach` without a sessionId. -/
def interceptedForwardB (e : ExtEnvelope) : Bool :=
  e.method == "forwardCDPCommand" &&
    ((envParamsMethod e == some "Browser.getVersion") ||
     (envParamsMethod e == some "Browser.setDownloadBehavior") ||
     (envParamsMethod e == some "Target.getTargetInfo") ||
     ((envParamsMethod e == some "Target.setAutoAttach") &&
       (envParamsLookup e "sessionId").isNone))

/-- Property read on a client frame's `params` object. -/
def frameParamLookup (f : ClientFrame) (k : String) : Option Json :=
  match f.params with
  | some p => p.lookup k
  | none => none

/-- Property read on a client frame's `params` object, projected to a
string value. -/
def frameParamLookupStr (f : ClientFrame) (k : String) : Option String :=
  match f.params with
  | some p => p.lookupStr k
  | none => none

/-- The `Browser.getVersion` payload asserted by the specification:
`{protocolVersion: "1.3", product: "Chrome/Bridge", userAgent: "CDP-Bridge/1.0"}`. -/
def c1ClaimedResult : Json :=
  Json.obj
    [("protocolVersion", Json.str "1.3"),
     ("product", Json.str "Chrome/Bridge"),
     ("userAgent", Json.str "CDP-Bridge/1.0")]

/-! ## Theorems -/

theorem countLaunches_append (l₁ l₂ : List FactoryAction) :
    countLaunches (l₁ ++ l₂) = countLaunches l₁ + countLaunches l₂ := by
  simp [countLaunches, List.countP_append]

theorem createContextLoop_launch_bound (f : ℕ → Option String) :
    ∀ n i acc, countLaunches (createContextLoop f n i acc).2 ≤ countLaunches acc + n := by
  intro n
  induction n with
  | zero => intro i acc; simp [createContextLoop]
  | succ n ih =>
    intro i acc
    simp only [createContextLoop]
    rcases h : f i with _ | msg
    · simp [countLaunches_append, countLaunches]
    · simp only []
      by_cases h1 : strIncludes msg missingExeNeedle = true
      · simp [h1, countLaunches_append, countLaunches]
      · simp only [Bool.not_eq_true] at h1
        simp only [h1, Bool.false_eq_true, if_false]
        by_cases h2 : (strIncludes msg "ProcessSingleton" || strIncludes msg "Invalid URL") = true
        · simp only [h2, if_true]
          calc countLaunches (createContextLoop f n (i + 1)
                ((acc ++ [FactoryAction.launchAttempt]) ++ [FactoryAction.sleepOneSecond])).2
              ≤ countLaunches ((acc ++ [FactoryAction.launchAttempt]) ++
                  [FactoryAction.sleepOneSecond]) + n := ih _ _
            _ ≤ countLaunches acc + (n + 1) := by
                simp [countLaunches_append, countLaunches]; omega
        · simp only [Bool.not_eq_true] at h2
          simp [h2, countLaunches_append, countLaunches]

theorem createContextLoop_all_locked (f : ℕ → Option String) :
    ∀ n i acc,
      (∀ j, j < n → ∃ msg, f (i + j) = some msg ∧ lockStyleMsg msg) →
      (createContextLoop f n i acc).1 = CreateResult.busy ∧
      countLaunches (createContextLoop f n i acc).2 = countLaunches acc + n := by
  intro n
  induction n with
  | zero => intro i acc _; simp [createContextLoop]
  | succ n ih =>
    intro i acc h
    obtain ⟨msg, hmsg, hlock⟩ := h 0 (Nat.succ_pos n)
    simp only [Nat.add_zero] at hmsg
    simp only [createContextLoop, hmsg, hlock.1, hlock.2, Bool.false_eq_true, if_false, if_true]
    have hrest : ∀ j, j < n → ∃ m, f (i + 1 + j) = some m ∧ lockStyleMsg m := by
      intro j hj
      have := h (j + 1) (by omega)
      simpa [Nat.add_comm, Nat.add_assoc, Nat.add_left_comm] using this
    obtain ⟨h1, h2⟩ := ih (i + 1) ((acc ++ [FactoryAction.launchAttempt]) ++
      [FactoryAction.sleepOneSecond]) hrest
    refine ⟨h1, ?_⟩
    rw [h2]
    simp [countLaunches_append, countLaunches]
    omega

/-- C9.  The persistent context factory makes at most 5 launch attempts; a
profile-lock style failure (a message naming `ProcessSingleton`, or
`Invalid URL`) is followed by a 1-second sleep and a retry; a
missing-executable failure on the first attempt fails at once after that
single attempt, as does any other failure; and five lock-style failures in
a row exhaust the loop and fail with the busy error. -/
theorem c9_createContext_retryPolicy :
    (∀ f, countLaunches (createContext f).2 ≤ 5) ∧
    (∀ f n i acc msg, f i = some msg → lockStyleMsg msg →
      createContextLoop f (n + 1) i acc =
        createContextLoop f n (i + 1)
          ((acc ++ [FactoryAction.launchAttempt]) ++ [FactoryAction.sleepOneSecond])) ∧
    (∀ f msg, f 0 = some msg → strIncludes msg missingExeNeedle = true →
      createContext f = (CreateResult.browserNotInstalled, [FactoryAction.launchAttempt])) ∧
    (∀ f msg, f 0 = some msg → strIncludes msg missingExeNeedle = false →
      (strIncludes msg "ProcessSingleton" || strIncludes msg "Invalid URL") = false →
      createContext f = (CreateResult.otherFailure msg, [FactoryAction.launchAttempt])) ∧
    (∀ f, (∀ j, j < 5 → ∃ msg, f j = some msg ∧ lockStyleMsg msg) →
      (createContext f).1 = CreateResult.busy ∧ countLaunches (createContext f).2 = 5) := by
  refine ⟨?_, ?_, ?_, ?_, ?_⟩
  · intro f
    have := createContextLoop_launch_bound f 5 0 []
    simpa [createContext, countLaunches] using this
  · intro f n i acc msg hmsg hlock
    simp [createContextLoop, hmsg, hlock.1, hlock.2]
  · intro f msg hmsg hexe
    simp [createContext, createContextLoop, hmsg, hexe]
  · intro f msg hmsg hexe hlock
    simp [createContext, createContextLoop, hmsg, hexe, hlock]
  · intro f h
    have := createContextLoop_all_locked f 5 0 [] (by simpa using h)
    simpa [createContext, countLaunches] using this

/-- C6, counterexample.  The claim asserts that after any `getTabs()` call
neither the table nor the returned snapshot contains a tab whose page is
closed.  The second controller variant's `getTabs` (controller.ts:1029-1037)
does not prune: starting from a table holding one tab whose page is already
closed, the snapshot still lists that tab and the table still contains it
after the call returns. -/
theorem c6_counterexample :
    ((getTabsNoPrune ⟨[⟨"B", "https://b", "title-b", none, true⟩], none⟩).2.any
        (fun u => u.id == "B")) = true ∧
    ((getTabsNoPrune ⟨[⟨"B", "https://b", "title-b", none, true⟩], none⟩).1.tabs.any
        (fun t => t.pageClosed)) = true := by
  constructor <;> rfl

/-- C6, amended.  For the pruning `getTabs` of the first controller variant
(controller.ts:673-703): after the call, every tab left in the table has an
open page, and every tab whose page was closed before the call is omitted
from the returned snapshot.  The second variant's `getTabs` returns the
table verbatim and gives no such guarantee. -/
theorem c6_getTabs_prunes_closed (st : ControllerState) :
    (∀ t ∈ (getTabsPruning st).1.tabs, t.pageClosed = false) ∧
    (∀ t ∈ st.tabs, t.pageClosed = true →
      ∀ u ∈ (getTabsPruning st).2, u.id ≠ t.id) := by
  constructor
  · intro t ht
    simp only [getTabsPruning, List.mem_filter] at ht
    obtain ⟨hmem, hnc⟩ := ht
    by_contra hc
    simp only [Bool.not_eq_false] at hc
    have hdel : t.id ∈ (st.tabs.filter (fun t => t.pageClosed)).map (fun t => t.id) :=
      List.mem_map_of_mem _ (List.mem_filter.mpr ⟨hmem, by simp [hc]⟩)
    rw [← List.elem_iff] at hdel
    simp only [decide_eq_true_eq] at hnc
    exact hnc (by simpa [List.contains] using hdel)
  · intro t hmem hclosed u hu huid
    simp only [getTabsPruning, List.mem_map] at hu
    obtain ⟨t', ht', hstrip⟩ := hu
    simp only [List.mem_filter] at ht'
    obtain ⟨_, hnc⟩ := ht'
    have hdel : t.id ∈ (st.tabs.filter (fun t => t.pageClosed)).map (fun t => t.id) :=
      List.mem_map_of_mem _ (List.mem_filter.mpr ⟨hmem, by simp [hclosed]⟩)
    have heq : t'.id = t.id := by
      rw [← huid, ← hstrip]
      rfl
    rw [← heq] at hdel
    rw [← List.elem_iff] at hdel
    simp only [decide_eq_true_eq] at hnc
    exact hnc (by simpa [List.contains] using hdel)

/-- Witness for C6's amended theorem on a concrete two-tab table with one
closed page: the closed tab is omitted from the snapshot and the surviving
table entry has an open page. -/
theorem c6_witness :
    ((⟨"A", "https://a", "title-a", none, false⟩ : BrowserTab) ∈
      (getTabsPruning ⟨[⟨"A", "https://a", "title-a", none, false⟩,
        ⟨"B", "https://b", "title-b", none, true⟩], some "B"⟩).1.tabs ∧
      (⟨"A", "https://a", "title-a", none, false⟩ : BrowserTab).pageClosed = false) ∧
    ((⟨"B", "https://b", "title-b", none, true⟩ : BrowserTab) ∈
      ([⟨"A", "https://a", "title-a", none, false⟩,
        ⟨"B", "https://b", "title-b", none, true⟩] : List BrowserTab) ∧
      ∀ u ∈ (getTabsPruning ⟨[⟨"A", "https://a", "title-a", none, false⟩,
        ⟨"B", "https://b", "title-b", none, true⟩], some "B"⟩).2,
        u.id ≠ "B") := by
  constructor
  · refine ⟨by decide, ?_⟩
    exact (c6_getTabs_prunes_closed
      ⟨[⟨"A", "https://a", "title-a", none, false⟩,
        ⟨"B", "https://b", "title-b", none, true⟩], some "B"⟩).1
      ⟨"A", "https://a", "title-a", none, false⟩ (by decide)
  · refine ⟨by decide, ?_⟩
    intro u hu
    exact (c6_getTabs_prunes_closed
      ⟨[⟨"A", "https://a", "title-a", none, false⟩,
        ⟨"B", "https://b", "title-b", none, true⟩], some "B"⟩).2
      ⟨"B", "https://b", "title-b", none, true⟩ (by decide) rfl u hu

/-- Characterization of `List.find?`: a hit is an accepted element preceded
only by rejected ones, in list order. -/
theorem find?_eq_some_split {α : Type} (p : α → Bool) :
    ∀ (l : List α) (a : α), l.find? p = some a →
      p a = true ∧ ∃ pre post, l = pre ++ a :: post ∧ ∀ b ∈ pre, p b = false := by
  intro l
  induction l with
  | nil => intro a h; simp [List.find?] at h
  | cons x xs ih =>
    intro a h
    by_cases hx : p x = true
    · rw [List.find?_cons_of_pos _ hx] at h
      injection h with h
      subst h
      exact ⟨hx, [], xs, rfl, by intro b hb; simp at hb⟩
    · simp only [Bool.not_eq_true] at hx
      rw [List.find?_cons_of_neg _ (by simp [hx])] at h
      obtain ⟨hpa, pre, post, hsplit, hpre⟩ := ih a h
      refine ⟨hpa, x :: pre, post, by simp [hsplit], ?_⟩
      intro b hb
      rcases List.mem_cons.mp hb with hb | hb
      · subst hb; exact hx
      · exact hpre b hb

/-- C7.  When the tab exists (with an open page) and the registry lookup by
site id misses, `executePrompt` resolves the adapter by the tab's URL and
invokes it, failing with the adapter-missing error only when the URL lookup
also misses; and the URL lookup returns the first registered adapter, in
insertion order, whose `isCurrentWebsite` accepts the URL. -/
theorem c7_executePrompt_url_fallback (tabs : List BrowserTab)
    (adapters : List WebsiteAdapterSpec) (tabId websiteType : String) (tab : BrowserTab)
    (hfind : tabs.find? (fun t => t.id == tabId) = some tab)
    (hopen : tab.pageClosed = false)
    (hmiss : getAdapter adapters websiteType = none) :
    (executePromptResolve tabs adapters tabId websiteType =
      match getAdapterByUrl adapters tab.url with
      | some a => ExecOutcome.invoke a
      | none => ExecOutcome.adapterMissing) ∧
    (∀ a, getAdapterByUrl adapters tab.url = some a →
      a.isCurrentWebsite tab.url = true ∧
      ∃ pre post, adapters = pre ++ a :: post ∧
        ∀ b ∈ pre, b.isCurrentWebsite tab.url = false) := by
  constructor
  · simp only [executePromptResolve, hfind, hopen, Bool.false_eq_true, if_false, hmiss]
  · intro a ha
    exact find?_eq_some_split _ adapters a ha

/-- Witness for C7, the S5 scenario: a tab at a DeepSeek chat URL, a
registry holding the DeepSeek adapter, and the unknown site id
`unknown-id`; the registry misses, the URL fallback finds the DeepSeek
adapter, and its `executePrompt` is the one invoked. -/
theorem c7_witness :
    ([(⟨"T1", "https://chat.deepseek.com/x", "DeepSeek", some "deepseek", false⟩ :
        BrowserTab)].find? (fun t => t.id == "T1") =
      some ⟨"T1", "https://chat.deepseek.com/x", "DeepSeek", some "deepseek", false⟩) ∧
    getAdapter [deepseekAdapter] "unknown-id" = none ∧
    executePromptResolve
      [⟨"T1", "https://chat.deepseek.com/x", "DeepSeek", some "deepseek", false⟩]
      [deepseekAdapter] "T1" "unknown-id" = ExecOutcome.invoke deepseekAdapter := by
  refine ⟨rfl, rfl, ?_⟩
  have h := (c7_executePrompt_url_fallback
    [⟨"T1", "https://chat.deepseek.com/x", "DeepSeek", some "deepseek", false⟩]
    [deepseekAdapter] "T1" "unknown-id"
    ⟨"T1", "https://chat.deepseek.com/x", "DeepSeek", some "deepseek", false⟩
    rfl rfl rfl).1
  rw [h]
  rfl

theorem typeHumanLikeAux_flatten (r : ℕ → ℚ) :
    ∀ fuel i cs, cs.length ≤ fuel →
      ((typeHumanLikeAux r fuel i cs).filterMap TypeEvent.chunk?).flatten = cs := by
  intro fuel
  induction fuel with
  | zero =>
    intro i cs h
    have : cs = [] := List.length_eq_zero.mp (Nat.le_zero.mp h)
    subst this
    simp [typeHumanLikeAux]
  | succ fuel ih =>
    intro i cs h
    match cs with
    | [] => simp [typeHumanLikeAux]
    | c :: cs =>
      have hk1 : 1 ≤ (⌊r i * 3⌋).toNat + 1 := Nat.le_add_left 1 _
      have hlen : ((c :: cs).drop ((⌊r i * 3⌋).toNat + 1)).length ≤ fuel := by
        simp only [List.length_drop, List.length_cons]
        simp only [List.length_cons] at h
        omega
      by_cases hc : r (i + 2) < 1 / 5
      · simp only [typeHumanLikeAux, hc, if_true, List.filterMap_cons, TypeEvent.chunk?,
          List.flatten_cons]
        rw [ih _ _ hlen, List.take_append_drop]
      · simp only [typeHumanLikeAux, hc, if_false, List.filterMap_cons, TypeEvent.chunk?,
          List.flatten_cons]
        rw [ih _ _ hlen, List.take_append_drop]

theorem typeHumanLikeAux_bounds (r : ℕ → ℚ) (hr : ∀ n, 0 ≤ r n ∧ r n < 1) :
    ∀ fuel i cs, ∀ ev ∈ typeHumanLikeAux r fuel i cs,
      (∀ ch d, ev = TypeEvent.typeChunk ch d →
        1 ≤ ch.length ∧ ch.length ≤ 3 ∧ 40 ≤ d ∧ d < 120) ∧
      (∀ p, ev = TypeEvent.pause p → 80 ≤ p ∧ p < 280) := by
  intro fuel
  induction fuel with
  | zero => intro i cs ev hev; simp [typeHumanLikeAux] at hev
  | succ fuel ih =>
    intro i cs ev hev
    match cs with
    | [] => simp [typeHumanLikeAux] at hev
    | c :: cs =>
      have hkle : (⌊r i * 3⌋).toNat + 1 ≤ 3 := by
        have h3 : r i * 3 < 3 := by nlinarith [(hr i).2]
        have hf : ⌊r i * 3⌋ < 3 := by
          have := Int.floor_lt.mpr (show r i * 3 < ((3 : ℤ) : ℚ) by push_cast; exact h3)
          exact this
        omega
      have hchunk : (∀ ch d', TypeEvent.typeChunk ((c :: cs).take ((⌊r i * 3⌋).toNat + 1))
            (40 + r (i + 1) * 80) = TypeEvent.typeChunk ch d' →
            1 ≤ ch.length ∧ ch.length ≤ 3 ∧ 40 ≤ d' ∧ d' < 120) ∧
          (∀ p, TypeEvent.typeChunk ((c :: cs).take ((⌊r i * 3⌋).toNat + 1))
            (40 + r (i + 1) * 80) = TypeEvent.pause p → 80 ≤ p ∧ p < 280) := by
        constructor
        · intro ch d' hev'
          injection hev' with h1 h2
          subst h1; subst h2
          refine ⟨?_, ?_, ?_, ?_⟩
          · simp [List.length_take]
          · simp only [List.length_take]
            omega
          · nlinarith [(hr (i + 1)).1]
          · nlinarith [(hr (i + 1)).2]
        · intro p hev'
          exact absurd hev' (by simp)
      by_cases hcoin : r (i + 2) < 1 / 5
      · simp only [typeHumanLikeAux, hcoin, if_true, List.mem_cons] at hev
        rcases hev with hev | hev | hev
        · subst hev; exact hchunk
        · subst hev
          constructor
          · intro ch d hev'; exact absurd hev' (by simp)
          · intro p hev'
            injection hev' with h1
            subst h1
            constructor
            · nlinarith [(hr (i + 3)).1]
            · nlinarith [(hr (i + 3)).2]
        · exact ih _ _ ev hev
      · simp only [typeHumanLikeAux, hcoin, if_false, List.mem_cons] at hev
        rcases hev with hev | hev
        · subst hev; exact hchunk
        · exact ih _ _ ev hev

theorem typeHumanLikeAux_shape (r : ℕ → ℚ) :
    ∀ fuel i cs, ChunkedShape (typeHumanLikeAux r fuel i cs) := by
  intro fuel
  induction fuel with
  | zero => intro i cs; exact ChunkedShape.nil
  | succ fuel ih =>
    intro i cs
    match cs with
    | [] => exact ChunkedShape.nil
    | c :: cs =>
      by_cases hcoin : r (i + 2) < 1 / 5
      · simp only [typeHumanLikeAux, hcoin, if_true]
        exact ChunkedShape.chunkPause _ _ _ (ih _ _)
      · simp only [typeHumanLikeAux, hcoin, if_false]
        exact ChunkedShape.chunkOnly _ _ (ih _ _)

/-- C8.  With `Math.random()` samples in `[0, 1)`, `typeHumanLike` emits the
prompt as chunks of 1 to 3 characters whose concatenation is the prompt;
each chunk is typed with a per-character delay in `[40, 120)` milliseconds;
every extra pause lasts between 80 and 280 milliseconds and occurs only
directly after a chunk (it is taken exactly when the coin sample is below
`0.2`). -/
theorem c8_typeHumanLike_chunks (r : ℕ → ℚ) (text : List Char)
    (hr : ∀ n, 0 ≤ r n ∧ r n < 1) :
    ((typeHumanLike r text).filterMap TypeEvent.chunk?).flatten = text ∧
    (∀ ev ∈ typeHumanLike r text, ∀ ch d, ev = TypeEvent.typeChunk ch d →
      1 ≤ ch.length ∧ ch.length ≤ 3 ∧ 40 ≤ d ∧ d < 120) ∧
    (∀ ev ∈ typeHumanLike r text, ∀ p, ev = TypeEvent.pause p → 80 ≤ p ∧ p < 280) ∧
    ChunkedShape (typeHumanLike r text) := by
  refine ⟨typeHumanLikeAux_flatten r _ _ _ le_rfl, ?_, ?_, typeHumanLikeAux_shape r _ _ _⟩
  · intro ev hev ch d hd
    exact (typeHumanLikeAux_bounds r hr _ _ _ ev hev).1 ch d hd
  · intro ev hev p hp
    exact (typeHumanLikeAux_bounds r hr _ _ _ ev hev).2 p hp

/-- Witness for C8: with the all-zero sample stream, typing the two-letter
prompt produces one-character chunks at a 40 ms per-character delay, each
followed by an 80 ms pause, and their concatenation is the prompt. -/
theorem c8_witness :
    (∀ n, 0 ≤ rZero n ∧ rZero n < 1) ∧
    ((typeHumanLike rZero ['h', 'i']).filterMap TypeEvent.chunk?).flatten = ['h', 'i'] ∧
    typeHumanLike rZero ['h', 'i'] =
      [TypeEvent.typeChunk ['h'] 40, TypeEvent.pause 80,
       TypeEvent.typeChunk ['i'] 40, TypeEvent.pause 80] := by
  have hr : ∀ n, 0 ≤ rZero n ∧ rZero n < 1 := fun n => ⟨le_refl 0, by norm_num [rZero]⟩
  refine ⟨hr, (c8_typeHumanLike_chunks rZero ['h', 'i'] hr).1, ?_⟩
  norm_num [typeHumanLike, typeHumanLikeAux, rZero]

/-- Witness for C9 at concrete launch oracles: an oracle that always fails
with a `ProcessSingleton` message exhausts all five attempts and ends busy,
and an oracle whose first failure is a missing executable stops after one
attempt. -/
theorem c9_witness :
    (∀ j, j < 5 → ∃ msg, (fun _ : ℕ => some "ProcessSingleton: profile is in use") j
        = some msg ∧ lockStyleMsg msg) ∧
    (createContext (fun _ => some "ProcessSingleton: profile is in use")).1
        = CreateResult.busy ∧
    (fun _ : ℕ => some (missingExeNeedle ++ " at /opt/chrome")) 0
        = some (missingExeNeedle ++ " at /opt/chrome") ∧
    strIncludes (missingExeNeedle ++ " at /opt/chrome") missingExeNeedle = true ∧
    createContext (fun _ => some (missingExeNeedle ++ " at /opt/chrome"))
        = (CreateResult.browserNotInstalled, [FactoryAction.launchAttempt]) := by
  have hlock : ∀ j, j < 5 → ∃ msg,
      (fun _ : ℕ => some "ProcessSingleton: profile is in use") j = some msg ∧
      lockStyleMsg msg := by
    intro j _
    exact ⟨"ProcessSingleton: profile is in use", rfl, by constructor <;> decide⟩
  refine ⟨hlock, (c9_createContext_retryPolicy.2.2.2.2 _ hlock).1, rfl, by decide, ?_⟩
  exact c9_createContext_retryPolicy.2.2.1 _ _ rfl (by decide)

theorem find?_objSet (k : String) (v : Json) :
    ∀ fs : List (String × Json),
      (objSet fs k v).find? (fun p => p.1 == k) = some (k, v) := by
  intro fs
  induction fs with
  | nil => simp [objSet, List.find?]
  | cons p fs ih =>
    by_cases hp : p.1 == k
    · have hany : (p :: fs).any (fun q => q.1 == k) = true := by simp [List.any_cons, hp]
      simp only [objSet, hany, if_true, List.map_cons, hp, if_pos]
      rw [List.find?_cons_of_pos _ (by simp)]
    · by_cases hany : fs.any (fun q => q.1 == k)
      · have hany' : (p :: fs).any (fun q => q.1 == k) = true := by
          simp [List.any_cons, hany]
        simp only [objSet, hany', if_true, List.map_cons, hp, if_neg, Bool.false_eq_true]
        rw [List.find?_cons_of_neg _ (by simp [hp])]
        have := ih
        simp only [objSet, hany, if_true] at this
        exact this
      · have hany' : (p :: fs).any (fun q => q.1 == k) = false := by
          simp only [List.any_cons, Bool.or_eq_false_iff]
          exact ⟨by simp [hp], by simp [hany]⟩
        simp only [objSet, hany', Bool.false_eq_true, if_false, List.cons_append]
        rw [List.find?_cons_of_neg _ (by simp [hp])]
        have := ih
        simp only [objSet, hany, Bool.false_eq_true, if_false] at this
        exact this

theorem Json.lookup_spreadSet (j : Json) (k : String) (v : Json) :
    (j.spreadSet k v).lookup k = some v := by
  cases j with
  | obj fs => simp [Json.spreadSet, Json.lookup, find?_objSet]
  | null => simp [Json.spreadSet, Json.lookup, List.find?]
  | bool b => simp [Json.spreadSet, Json.lookup, List.find?]
  | num n => simp [Json.spreadSet, Json.lookup, List.find?]
  | str s => simp [Json.spreadSet, Json.lookup, List.find?]

theorem interceptedForwardB_attachEnv (nid : Nat) :
    interceptedForwardB ⟨nid, "attachToTab", none, none⟩ = false := by
  simp [interceptedForwardB]

theorem interceptedForwardB_detachEnv (nid : Nat) :
    interceptedForwardB ⟨nid, "detachFromTab", some (Json.obj []), none⟩ = false := by
  simp [interceptedForwardB]

theorem interceptedForwardB_forwardEnv (m : CDPCommand) (nid : Nat)
    (h1 : m.method ≠ "Browser.getVersion")
    (h2 : m.method ≠ "Browser.setDownloadBehavior")
    (h4 : m.method ≠ "Target.getTargetInfo")
    (h3 : m.method = "Target.setAutoAttach" → m.sessionId.isSome = true) :
    interceptedForwardB
      ⟨nid, "forwardCDPCommand",
        some (forwardParams m.sessionId m.method m.params), none⟩ = false := by
  cases hsid : m.sessionId with
  | some s =>
    cases hps : m.params with
    | some p =>
      simp [interceptedForwardB, envParamsMethod, envParamsLookup, forwardParams,
        Json.lookup, Json.lookupStr, List.find?, h1, h2, h4]
    | none =>
      simp [interceptedForwardB, envParamsMethod, envParamsLookup, forwardParams,
        Json.lookup, Json.lookupStr, List.find?, h1, h2, h4]
  | none =>
    have h3' : m.method ≠ "Target.setAutoAttach" := by
      intro hm
      have := h3 hm
      rw [hsid] at this
      simp at this
    cases hps : m.params with
    | some p =>
      simp [interceptedForwardB, envParamsMethod, envParamsLookup, forwardParams,
        Json.lookup, Json.lookupStr, List.find?, h1, h2, h4, h3']
    | none =>
      simp [interceptedForwardB, envParamsMethod, envParamsLookup, forwardParams,
        Json.lookup, Json.lookupStr, List.find?, h1, h2, h4, h3']

theorem handlePlaywrightMessage_envs_ok (st : RelayState) (m : CDPCommand)
    (r : Except String ConnectionInfo) :
    ((handlePlaywrightMessage st m r).envs).all (fun e => !interceptedForwardB e) = true := by
  unfold handlePlaywrightMessage
  by_cases hconn : st.extConnected
  · simp only [hconn, if_true]
    unfold interceptCDPCommand
    by_cases h1 : m.method = "Browser.getVersion"
    · simp [h1]
    · rw [if_neg h1]
      by_cases h2 : m.method = "Browser.setDownloadBehavior"
      · simp [h2]
      · rw [if_neg h2]
        by_cases h3 : m.method = "Target.setAutoAttach"
        · rw [if_pos h3]
          cases hsid : m.sessionId with
          | none =>
            cases r with
            | ok ci => simp [interceptedForwardB_attachEnv]
            | error e => simp [interceptedForwardB_attachEnv]
          | some s =>
            simp only [forwardToExtension, List.all_cons, List.all_nil, Bool.and_true]
            rw [interceptedForwardB_forwardEnv m _ (by rw [h3]; decide)
              (by rw [h3]; decide) (by rw [h3]; decide) (by intro _; rw [hsid]; rfl)]
            rfl
        · rw [if_neg h3]
          by_cases h4 : m.method = "Target.getTargetInfo"
          · simp [h4]
          · rw [if_neg h4]
            simp only [forwardToExtension, List.all_cons, List.all_nil, Bool.and_true]
            rw [interceptedForwardB_forwardEnv m _ h1 h2 h4 (fun hm => absurd hm h3)]
            rfl
  · simp [hconn]

theorem processQueued_envs_ok (qs : List (CDPCommand × Except String ConnectionInfo)) :
    ∀ st : RelayState,
      ((processQueued st qs).2.2).all (fun e => !interceptedForwardB e) = true := by
  induction qs with
  | nil => intro st; simp [processQueued]
  | cons q qs ih =>
    intro st
    simp only [processQueued]
    rw [List.all_append]
    rw [handlePlaywrightMessage_envs_ok st q.1 q.2, ih]
    rfl

theorem stepRelay_envs_ok (st : RelayState) (ev : REvent) :
    ((stepRelay st ev).envs).all (fun e => !interceptedForwardB e) = true := by
  cases ev with
  | extConnect =>
    simp only [stepRelay]
    by_cases hconn : st.extConnected
    · simp only [hconn, if_true]
      exact processQueued_envs_ok _ _
    · simp only [hconn, Bool.false_eq_true, if_false]
      exact processQueued_envs_ok _ _
  | clientData d r =>
    cases d with
    | malformed => simp [stepRelay, onPlaywrightSocketData]
    | ok m =>
      simp only [stepRelay, onPlaywrightSocketData]
      by_cases hconn : st.extConnected
      · simp only [hconn, if_true]
        exact handlePlaywrightMessage_envs_ok st m r
      · simp [hconn]
  | extData d =>
    cases d with
    | malformed => simp [stepRelay, onExtensionSocketData]
    | ok inc =>
      simp only [stepRelay, onExtensionSocketData]
      rcases h : handleExtensionIncoming st inc with ⟨st1, fs, closed⟩
      cases closed <;> simp
  | extClose => simp [stepRelay]
  | clientClose =>
    simp only [stepRelay]
    by_cases hconn : st.extConnected
    · simp only [hconn, if_true, List.all_cons, List.all_nil, Bool.and_true]
      rw [interceptedForwardB_detachEnv]
      rfl
    · simp [hconn]

/-- C2.  Along every trace of the relay, every envelope sent to the
extension fails the intercepted-forward test: no `forwardCDPCommand` whose
`params.method` is `Browser.getVersion`, `Browser.setDownloadBehavior` or
`Target.getTargetInfo` is ever forwarded, and no `forwardCDPCommand` for
`Target.setAutoAttach` whose `params.sessionId` is absent is ever
forwarded; those commands are answered by the relay itself. -/
theorem c2_no_intercepted_forward (st : RelayState) (events : List REvent) :
    ((runRelay st events).2.2).all (fun e => !interceptedForwardB e) = true := by
  induction events generalizing st with
  | nil => simp [runRelay]
  | cons ev events ih =>
    simp only [runRelay]
    rw [List.all_append]
    rw [stepRelay_envs_ok st ev, ih]
    rfl

/-- C3.  When the extension socket closes while the registered callbacks
are the pending forwarded commands `ps` (each with its envelope id, the
original client id, and the client's sessionId), the disposal rejects each
callback with `WebSocket closed`, the client receives exactly one error
frame per pending command carrying the original client-assigned id, in
order, and the callback table is left empty, so no callback can be
rejected again. -/
theorem c3_extension_close_rejects_pending (conn : Bool) (cinfo : Option ConnectionInfo)
    (qs : List (CDPCommand × Except String ConnectionInfo)) (lastId : Nat)
    (ps : List (Nat × Nat × Option String)) :
    (stepRelay ⟨conn, cinfo, qs,
        ps.map (fun t => Pending.forwardCmd t.1 t.2.1 t.2.2), lastId⟩
      REvent.extClose).frames =
        ps.map (fun t => fwdErrorFrame t.2.1 t.2.2 "WebSocket closed") ∧
    (stepRelay ⟨conn, cinfo, qs,
        ps.map (fun t => Pending.forwardCmd t.1 t.2.1 t.2.2), lastId⟩
      REvent.extClose).frames.length = ps.length ∧
    (stepRelay ⟨conn, cinfo, qs,
        ps.map (fun t => Pending.forwardCmd t.1 t.2.1 t.2.2), lastId⟩
      REvent.extClose).st.pending = [] ∧
    (stepRelay ⟨conn, cinfo, qs,
        ps.map (fun t => Pending.forwardCmd t.1 t.2.1 t.2.2), lastId⟩
      REvent.extClose).envs = [] := by
  have hframes : (stepRelay ⟨conn, cinfo, qs,
      ps.map (fun t => Pending.forwardCmd t.1 t.2.1 t.2.2), lastId⟩
      REvent.extClose).frames =
      ps.map (fun t => fwdErrorFrame t.2.1 t.2.2 "WebSocket closed") := by
    simp only [stepRelay, disposeExtension, List.filterMap_map]
    have hcomp : (rejectFrame ∘ fun t : ℕ × ℕ × Option String =>
        Pending.forwardCmd t.1 t.2.1 t.2.2) =
        some ∘ (fun t : ℕ × ℕ × Option String =>
          fwdErrorFrame t.2.1 t.2.2 "WebSocket closed") := rfl
    rw [hcomp, List.filterMap_eq_map]
  refine ⟨hframes, ?_, rfl, rfl⟩
  rw [hframes, List.length_map]

/-- C4.  With the extension connected and an `attachToTab` reply of
`{sessionId, targetInfo} = ci`, a client `Target.setAutoAttach` command
without a sessionId makes the relay ask the extension `attachToTab` (and
nothing else), record `ci` as the current attachment, and then send the
client first the unsolicited `Target.attachedToTarget` notification —
whose `params.sessionId` is the recorded sessionId, whose
`params.targetInfo` is the recorded targetInfo with `attached` overwritten
to `true`, and whose `waitingForDebugger` is `false` — and only then the
empty success response under the original command id. -/
theorem c4_setAutoAttach_synthesis (cinfo : Option ConnectionInfo)
    (qs : List (CDPCommand × Except String ConnectionInfo))
    (pend : List Pending) (lastId : Nat) (idn : Nat) (p : Option Json)
    (ci : ConnectionInfo) :
    (handlePlaywrightMessage ⟨true, cinfo, qs, pend, lastId⟩
        ⟨idn, none, "Target.setAutoAttach", p⟩ (Except.ok ci)).st.connectionInfo =
      some ci ∧
    (handlePlaywrightMessage ⟨true, cinfo, qs, pend, lastId⟩
        ⟨idn, none, "Target.setAutoAttach", p⟩ (Except.ok ci)).frames =
      [attachedNotifFrame ci, respFrame idn none] ∧
    (handlePlaywrightMessage ⟨true, cinfo, qs, pend, lastId⟩
        ⟨idn, none, "Target.setAutoAttach", p⟩ (Except.ok ci)).envs =
      [⟨lastId + 1, "attachToTab", none, none⟩] ∧
    (attachedNotifFrame ci).method = some "Target.attachedToTarget" ∧
    frameParamLookupStr (attachedNotifFrame ci) "sessionId" = some ci.sessionId ∧
    frameParamLookup (attachedNotifFrame ci) "waitingForDebugger" =
      some (Json.bool false) ∧
    frameParamLookup (attachedNotifFrame ci) "targetInfo" =
      some (ci.targetInfo.spreadSet "attached" (Json.bool true)) ∧
    (ci.targetInfo.spreadSet "attached" (Json.bool true)).lookup "attached" =
      some (Json.bool true) ∧
    (respFrame idn none).id = some idn ∧
    (respFrame idn none).result = none ∧
    (respFrame idn none).error = none := by
  refine ⟨rfl, rfl, rfl, rfl, rfl, rfl, rfl, ?_, rfl, rfl, rfl⟩
  exact Json.lookup_spreadSet ci.targetInfo "attached" (Json.bool true)

/-- C10.  With the extension connected and no attachment recorded, a client
`Target.getTargetInfo` command is answered by the relay with a frame under
the original id that carries no `error` and no `result` (the
`this._connectionInfo?.targetInfo` access yields `undefined`, which
`JSON.stringify` drops): a success frame with an absent result, and the
state is unchanged, with nothing sent to the extension. -/
theorem c10_getTargetInfo_noAttachment
    (qs : List (CDPCommand × Except String ConnectionInfo))
    (pend : List Pending) (lastId : Nat) (idn : Nat) (sid : Option String)
    (p : Option Json) (r : Except String ConnectionInfo) :
    handlePlaywrightMessage ⟨true, none, qs, pend, lastId⟩
        ⟨idn, sid, "Target.getTargetInfo", p⟩ r =
      ⟨⟨true, none, qs, pend, lastId⟩, [respFrame idn none], []⟩ ∧
    (respFrame idn none).id = some idn ∧
    (respFrame idn none).error = none ∧
    (respFrame idn none).result = none ∧
    (respFrame idn none).method = none := by
  exact ⟨rfl, rfl, rfl, rfl, rfl⟩

/-- C1, counterexample.  A `Browser.getVersion` command sent while no
extension peer is connected receives no reply at all (the relay holds it on
the extension-connected promise), and once an extension connects the reply
that is then produced carries `product: "Chrome/PromptHub-Bridge"` and
`userAgent: "CDP-Bridge-Server/1.0.0"`, not the payload asserted by the
claim. -/
theorem c1_counterexample :
    (runRelay initialRelayState
      [REvent.clientData (ParseResult.ok ⟨7, none, "Browser.getVersion", none⟩)
        (Except.error "unused")]).2.1 = [] ∧
    (runRelay initialRelayState
      [REvent.clientData (ParseResult.ok ⟨7, none, "Browser.getVersion", none⟩)
        (Except.error "unused"), REvent.extConnect]).2.1 =
      [respFrame 7 (some getVersionResult)] ∧
    getVersionResult.lookupStr "product" = some "Chrome/PromptHub-Bridge" ∧
    c1ClaimedResult.lookupStr "product" = some "Chrome/Bridge" ∧
    getVersionResult ≠ c1ClaimedResult := by
  refine ⟨rfl, rfl, rfl, rfl, ?_⟩
  intro h
  have h1 : getVersionResult.lookupStr "product" = some "Chrome/PromptHub-Bridge" := rfl
  rw [h] at h1
  have h2 : c1ClaimedResult.lookupStr "product" = some "Chrome/Bridge" := rfl
  rw [h1] at h2
  exact absurd (Option.some.inj h2) (by decide)

/-- C1, amended.  A client `Browser.getVersion` command that arrives while
no extension peer is connected is held (no frame is sent to anyone); when
an extension connects, the relay answers it locally under the original id
with `{protocolVersion: "1.3", product: "Chrome/PromptHub-Bridge",
userAgent: "CDP-Bridge-Server/1.0.0"}`, and no envelope is ever sent to the
extension for that command. -/
theorem c1_amended_getVersion_localReply (idn : Nat) (sid : Option String)
    (p : Option Json) (r : Except String ConnectionInfo) :
    (runRelay initialRelayState
      [REvent.clientData (ParseResult.ok ⟨idn, sid, "Browser.getVersion", p⟩) r]).2.1
      = [] ∧
    (runRelay initialRelayState
      [REvent.clientData (ParseResult.ok ⟨idn, sid, "Browser.getVersion", p⟩) r]).2.2
      = [] ∧
    (runRelay initialRelayState
      [REvent.clientData (ParseResult.ok ⟨idn, sid, "Browser.getVersion", p⟩) r,
       REvent.extConnect]).2.1 = [respFrame idn (some getVersionResult)] ∧
    (runRelay initialRelayState
      [REvent.clientData (ParseResult.ok ⟨idn, sid, "Browser.getVersion", p⟩) r,
       REvent.extConnect]).2.2 = [] := by
  exact ⟨rfl, rfl, rfl, rfl⟩

/-- C5, counterexample.  The claim asserts that a malformed frame on either
socket closes that socket.  On the CDP client socket the handler catches
the `JSON.parse` failure and only logs it — the client socket is not
closed — while the extension socket is indeed closed. -/
theorem c5_counterexample :
    (onPlaywrightSocketData ⟨true, none, [], [], 0⟩ ParseResult.malformed
      (Except.error "unused")).2 = false ∧
    (onExtensionSocketData ⟨true, none, [], [], 0⟩ ParseResult.malformed).2.2 = true := by
  exact ⟨rfl, rfl⟩

/-- C5, amended.  A malformed frame from the extension closes the extension
socket, whose disposal then rejects all pending callbacks and resets the
connection; a malformed frame from the CDP client is caught and logged, the
client socket stays open and the relay state is unchanged. -/
theorem c5_amended_malformed_handling (st : RelayState)
    (r : Except String ConnectionInfo) :
    onPlaywrightSocketData st ParseResult.malformed r = (⟨st, [], []⟩, false) ∧
    onExtensionSocketData st ParseResult.malformed = (st, [], true) ∧
    (stepRelay st (REvent.extData ParseResult.malformed)).st.extConnected = false ∧
    (stepRelay st (REvent.extData ParseResult.malformed)).st.pending = [] := by
  exact ⟨rfl, rfl, rfl, rfl⟩

end PromptHub
